import Mathlib

/-!
Verification of the core subsystems of the `rs-go` SDK for the
RenderScreenshot API: the error classifier (`errors.go`), the resilient
HTTP transport's retry loop and delay calculation (`http.go`), the signed
URL generator (`client.go`), and the webhook signature verifier
(`webhook.go`).

Go machine integers (`int`, `int64`) are modelled as `Int`, with
two's-complement wraparound (`wrap64`) made explicit exactly where the Go
code can overflow.  Go strings are modelled as Lean `String`s together
with their UTF-8 byte sequence (`strBytes`), matching Go's `[]byte(s)`
conversion.  `time.Duration` values are integer nanosecond counts.
Functions from the Go standard library that the source calls
(`crypto/sha256`, `crypto/hmac`, `crypto/subtle.ConstantTimeCompare`,
`encoding/hex`, `strconv.ParseInt`, `net/url.QueryEscape`,
`sort.Strings`) are translated here from their documented and
standardized behavior (FIPS 180-4 for SHA-256, RFC 2104 for HMAC).
-/

/-! ### 32-bit words and SHA-256 (crypto/sha256, FIPS 180-4) -/

/-- Reduce a natural number to a 32-bit word. -/
def w32 (n : Nat) : Nat := n % 4294967296

/-- Rotate a 32-bit word right by `n` bits. -/
def rotr32 (x n : Nat) : Nat := (x >>> n) ||| w32 (x <<< (32 - n))

/-- Bitwise complement of a 32-bit word. -/
def not32 (x : Nat) : Nat := 4294967295 ^^^ x

/-- SHA-256 round constants. -/
def shaK : List Nat :=
  [1116352408, 1899447441, 3049323471, 3921009573, 961987163, 1508970993,
   2453635748, 2870763221, 3624381080, 310598401, 607225278, 1426881987,
   1925078388, 2162078206, 2614888103, 3248222580, 3835390401, 4022224774,
   264347078, 604807628, 770255983, 1249150122, 1555081692, 1996064986,
   2554220882, 2821834349, 2952996808, 3210313671, 3336571891, 3584528711,
   113926993, 338241895, 666307205, 773529912, 1294757372, 1396182291,
   1695183700, 1986661051, 2177026350, 2456956037, 2730485921, 2820302411,
   3259730800, 3345764771, 3516065817, 3600352804, 4094571909, 275423344,
   430227734, 506948616, 659060556, 883997877, 958139571, 1322822218,
   1537002063, 1747873779, 1955562222, 2024104815, 2227730452, 2361852424,
   2428436474, 2756734187, 3204031479, 3329325298]

/-- SHA-256 initial hash state. -/
def shaH0 : List Nat :=
  [1779033703, 3144134277, 1013904242, 2773480762, 1359893119,
   2600822924, 528734635, 1541459225]

/-- `Ch(x, y, z)` from FIPS 180-4. -/
def shaCh (x y z : Nat) : Nat := (x &&& y) ^^^ (not32 x &&& z)

/-- `Maj(x, y, z)` from FIPS 180-4. -/
def shaMaj (x y z : Nat) : Nat := (x &&& y) ^^^ (x &&& z) ^^^ (y &&& z)

/-- Big sigma 0. -/
def shaS0 (x : Nat) : Nat := rotr32 x 2 ^^^ rotr32 x 13 ^^^ rotr32 x 22

/-- Big sigma 1. -/
def shaS1 (x : Nat) : Nat := rotr32 x 6 ^^^ rotr32 x 11 ^^^ rotr32 x 25

/-- Small sigma 0. -/
def shas0 (x : Nat) : Nat := rotr32 x 7 ^^^ rotr32 x 18 ^^^ (x >>> 3)

/-- Small sigma 1. -/
def shas1 (x : Nat) : Nat := rotr32 x 17 ^^^ rotr32 x 19 ^^^ (x >>> 10)

/-- Big-endian 8-byte encoding of a 64-bit value. -/
def be64 (n : Nat) : List Nat :=
  [(n >>> 56) % 256, (n >>> 48) % 256, (n >>> 40) % 256, (n >>> 32) % 256,
   (n >>> 24) % 256, (n >>> 16) % 256, (n >>> 8) % 256, n % 256]

/-- SHA-256 message padding: a `0x80` byte, zeros to 56 mod 64, then the
bit length as a big-endian 64-bit integer. -/
def sha256Pad (msg : List Nat) : List Nat :=
  let len := msg.length
  let zeros := (119 - len % 64) % 64
  msg ++ (128 :: List.replicate zeros 0) ++ be64 (len * 8)

/-- Group a 64-byte block into 16 big-endian 32-bit words. -/
def bytesToWords : List Nat → List Nat
  | a :: b :: c :: d :: rest => (((a * 256 + b) * 256 + c) * 256 + d) :: bytesToWords rest
  | _ => []

/-- Extend the 16-word message schedule, appending `k` further words. -/
def shaExtendLoop (ws : List Nat) : Nat → List Nat
  | 0 => ws
  | k + 1 =>
    let i := ws.length
    let w := w32 (shas1 (ws.getD (i - 2) 0) + ws.getD (i - 7) 0 +
                  shas0 (ws.getD (i - 15) 0) + ws.getD (i - 16) 0)
    shaExtendLoop (ws ++ [w]) k

/-- One round of the SHA-256 compression function. -/
def shaRound (st : List Nat) (kw : Nat × Nat) : List Nat :=
  match st with
  | [a, b, c, d, e, f, g, h] =>
    let t1 := w32 (h + shaS1 e + shaCh e f g + kw.1 + kw.2)
    let t2 := w32 (shaS0 a + shaMaj a b c)
    [w32 (t1 + t2), a, b, c, w32 (d + t1), e, f, g]
  | st => st

/-- Compress one 64-byte block into the running state. -/
def sha256Compress (state block : List Nat) : List Nat :=
  let ws := shaExtendLoop (bytesToWords block) 48
  let st := (shaK.zip ws).foldl shaRound state
  List.zipWith (fun x y => w32 (x + y)) state st

/-- Fold the compression function over all 64-byte blocks. -/
def sha256Blocks (state : List Nat) : List Nat → List Nat
  | [] => state
  | b :: rest =>
    sha256Blocks (sha256Compress state (List.take 64 (b :: rest))) (List.drop 64 (b :: rest))
  termination_by l => l.length
  decreasing_by simp [List.length_drop]; omega

/-- Serialize the 8-word state as 32 big-endian bytes. -/
def wordsToBytes : List Nat → List Nat
  | [] => []
  | w :: rest => [(w >>> 24) % 256, (w >>> 16) % 256, (w >>> 8) % 256, w % 256] ++ wordsToBytes rest

/-- SHA-256 of a byte sequence. -/
def sha256 (msg : List Nat) : List Nat :=
  wordsToBytes (sha256Blocks shaH0 (sha256Pad msg))

/-- HMAC-SHA256 (RFC 2104): keys longer than the 64-byte block size are
hashed first, then padded with zeros. -/
def hmacSha256 (key msg : List Nat) : List Nat :=
  let k0 := if 64 < key.length then sha256 key else key
  let kp := k0 ++ List.replicate (64 - k0.length) 0
  let ipad := kp.map (fun b => b ^^^ 0x36)
  let opad := kp.map (fun b => b ^^^ 0x5c)
  sha256 (opad ++ sha256 (ipad ++ msg))

/-- Lowercase hexadecimal digit, as produced by `encoding/hex`. -/
def hexDigit (n : Nat) : Char :=
  if n < 10 then Char.ofNat (48 + n) else Char.ofNat (87 + n)

/-- Lowercase hexadecimal encoding of a byte sequence
(`hex.EncodeToString`). -/
def hexEncode (bs : List Nat) : String :=
  String.mk (bs.flatMap (fun b => [hexDigit (b / 16), hexDigit (b % 16)]))

/-! ### UTF-8 bytes of a string (Go's `[]byte(s)` conversion)

The encoder is written with division and remainder by powers of two; this
is the same function as the usual shift-and-mask presentation
(`x >>> 6 = x / 64`, `x &&& 0x3f = x % 64`, and `0xC0 ||| y = 0xC0 + y`
for `y < 64`). -/

/-- UTF-8 encoding of one code point. -/
def utf8EncodeCP (c : Nat) : List Nat :=
  if c < 0x80 then [c]
  else if c < 0x800 then [0xc0 + c / 0x40, 0x80 + c % 0x40]
  else if c < 0x10000 then [0xe0 + c / 0x1000, 0x80 + c / 0x40 % 0x40, 0x80 + c % 0x40]
  else [0xf0 + c / 0x40000, 0x80 + c / 0x1000 % 0x40, 0x80 + c / 0x40 % 0x40, 0x80 + c % 0x40]

/-- Consume the continuation byte of a 2-byte UTF-8 sequence (decoder
used only to show that `strBytes` is injective). -/
def utf8DecodeTail2 (b : Nat) : List Nat → Option (Nat × List Nat)
  | b1 :: rest => some ((b - 0xc0) * 0x40 + (b1 - 0x80), rest)
  | [] => none

/-- Consume the continuation bytes of a 3-byte UTF-8 sequence. -/
def utf8DecodeTail3 (b : Nat) : List Nat → Option (Nat × List Nat)
  | b1 :: b2 :: rest => some ((b - 0xe0) * 0x1000 + (b1 - 0x80) * 0x40 + (b2 - 0x80), rest)
  | _ => none

/-- Consume the continuation bytes of a 4-byte UTF-8 sequence. -/
def utf8DecodeTail4 (b : Nat) : List Nat → Option (Nat × List Nat)
  | b1 :: b2 :: b3 :: rest =>
    some ((b - 0xf0) * 0x40000 + (b1 - 0x80) * 0x1000 + (b2 - 0x80) * 0x40 + (b3 - 0x80), rest)
  | _ => none

/-- Decode one code point from a leading byte and the remaining bytes. -/
def utf8DecodeOne (b : Nat) (rest : List Nat) : Option (Nat × List Nat) :=
  if b < 0x80 then some (b, rest)
  else if b < 0xe0 then utf8DecodeTail2 b rest
  else if b < 0xf0 then utf8DecodeTail3 b rest
  else utf8DecodeTail4 b rest

/-- Decode a UTF-8 byte sequence back into code points, with enough fuel
for one step per code point. -/
def utf8DecodeLoop : Nat → List Nat → Option (List Nat)
  | _, [] => some []
  | 0, _ :: _ => none
  | fuel + 1, b :: rest =>
    match utf8DecodeOne b rest with
    | none => none
    | some (c, rest2) => (utf8DecodeLoop fuel rest2).map (c :: ·)

/-- The UTF-8 bytes of a string, i.e. Go's `[]byte(s)`. -/
def strBytes (s : String) : List Nat :=
  s.data.flatMap (fun c => utf8EncodeCP c.toNat)

/-! ### `crypto/subtle.ConstantTimeCompare` -/

/-- `subtle.ConstantTimeCompare`: 0 when the lengths differ, otherwise it
ORs together the XOR of every byte pair and yields 1 exactly when the
accumulator is 0. -/
def constantTimeCompare (x y : List Nat) : Nat :=
  if x.length ≠ y.length then 0
  else if (List.zipWith (fun a b => a ^^^ b) x y).foldl (fun acc v => acc ||| v) 0 = 0 then 1
  else 0

/-! ### `strconv.ParseInt` / `strconv.Atoi` (base 10, 64-bit) -/

/-- Parse a non-empty run of decimal digits; `none` on an empty list or
any non-digit character. -/
def parseDigits (cs : List Char) : Option Nat :=
  if cs = [] then none
  else
    cs.foldl
      (fun acc c =>
        match acc with
        | none => none
        | some n => if '0' ≤ c ∧ c ≤ '9' then some (n * 10 + (c.toNat - 48)) else none)
      (some 0)

/-- `strconv.ParseInt(s, 10, 64)` (also `strconv.Atoi` on a 64-bit
platform): an optional sign, then decimal digits; `none` on a syntax
error or when the value is outside the `int64` range. -/
def parseInt64 (s : String) : Option Int :=
  match s.data with
  | [] => none
  | c :: cs =>
    let signDigits : Bool × List Char :=
      if c = '-' then (true, cs) else if c = '+' then (false, cs) else (false, c :: cs)
    match parseDigits signDigits.2 with
    | none => none
    | some n =>
      let v : Int := if signDigits.1 then -(n : Int) else (n : Int)
      if -(2 ^ 63) ≤ v ∧ v ≤ 2 ^ 63 - 1 then some v else none

/-! ### Webhook verification (`webhook.go`) -/

/-- `DefaultTolerance = 300 * time.Second`, in nanoseconds. -/
def DefaultToleranceNs : Int := 300 * 1000000000

/-- Two's-complement wraparound of Go `int64` arithmetic. -/
def wrap64 (n : Int) : Int := (n + 2 ^ 63) % 2 ^ 64 - 2 ^ 63

/-- The `age` computed by `VerifyWebhook`: `now - ts` in `int64`
arithmetic, negated (again in `int64` arithmetic) when negative. -/
def goAge (now ts : Int) : Int :=
  let a := wrap64 (now - ts)
  if a < 0 then wrap64 (-a) else a

/-- The tolerance actually used: zero selects `DefaultTolerance`
(`webhook.go` lines 34–36). -/
def effectiveTolerance (tolerance : Int) : Int :=
  if tolerance = 0 then DefaultToleranceNs else tolerance

/-- `int64(tolerance.Seconds())`: `Duration.Seconds` divides the
nanosecond count by `1e9` in `float64` and the `int64` conversion
truncates toward zero, which is `Int.tdiv` (exact for every duration
whose second and sub-second parts are representable, in particular for
all durations appearing in the claims). -/
def toleranceSeconds (tolerance : Int) : Int :=
  (effectiveTolerance tolerance).tdiv 1000000000

/-- The expected signature string
`"sha256=" + hex(HMAC-SHA256(secret, timestamp + "." + payload))`
(`webhook.go` lines 52–57). -/
def expectedSignature (secret timestamp payload : String) : String :=
  "sha256=" ++ hexEncode (hmacSha256 (strBytes secret) (strBytes (timestamp ++ "." ++ payload)))

/-- `VerifyWebhook(payload, signature, timestamp, secret, tolerance)`
from `webhook.go`, with the verification-time clock `now`
(`time.Now().Unix()`) passed explicitly. -/
def VerifyWebhook (now : Int) (payload signature timestamp secret : String)
    (tolerance : Int) : Bool :=
  if payload = "" ∨ signature = "" ∨ timestamp = "" ∨ secret = "" then false
  else
    match parseInt64 timestamp with
    | none => false
    | some ts =>
      if goAge now ts > toleranceSeconds tolerance then false
      else constantTimeCompare (strBytes (expectedSignature secret timestamp payload))
             (strBytes signature) == 1

/-! ### Typed API errors (`errors.go`) -/

/-- `type ErrorCode string`. -/
abbrev ErrorCode := String

def CodeInvalidURL : ErrorCode := "invalid_url"
def CodeInvalidRequest : ErrorCode := "invalid_request"
def CodeMissingRequired : ErrorCode := "missing_required"
def CodeUnauthorized : ErrorCode := "unauthorized"
def CodeInvalidAPIKey : ErrorCode := "invalid_api_key"
def CodeExpiredSig : ErrorCode := "expired_signature"
def CodeForbidden : ErrorCode := "forbidden"
def CodeNoCredits : ErrorCode := "insufficient_credits"
def CodeNotFound : ErrorCode := "not_found"
def CodeRateLimited : ErrorCode := "rate_limited"
def CodeTimeout : ErrorCode := "timeout"
def CodeRenderFailed : ErrorCode := "render_failed"
def CodeInternalError : ErrorCode := "internal_error"
def CodeConnectionError : ErrorCode := "connection_error"

/-- The `Error` struct of `errors.go`. -/
structure Error where
  Message : String
  HTTPStatus : Int
  Code : ErrorCode
  RequestID : String
  RetryAfter : Int
  deriving DecidableEq, Repr

/-- `(*Error).IsRetryable` (`errors.go` lines 47–56). -/
def Error.IsRetryable (e : Error) : Bool :=
  if e.Code = CodeRateLimited ∨ e.Code = CodeTimeout ∨ e.Code = CodeRenderFailed ∨
      e.Code = CodeInternalError ∨ e.Code = CodeConnectionError then true
  else if 500 ≤ e.HTTPStatus ∧ e.HTTPStatus < 600 then true
  else false

/-- JSON values, as decoded by `encoding/json` into
`map[string]interface{}` (numbers become `float64`; their exact value is
irrelevant here, only that they are not strings). -/
inductive JsonVal where
  | null : JsonVal
  | bool : Bool → JsonVal
  | num : Int → JsonVal
  | str : String → JsonVal
  | arr : List JsonVal → JsonVal
  | obj : List (String × JsonVal) → JsonVal

/-- Lookup in a JSON object (Go map indexing; keys are unique). -/
def alookupJ : List (String × JsonVal) → String → Option JsonVal
  | [], _ => none
  | (k, v) :: rest, key => if k = key then some v else alookupJ rest key

/-- The status-to-code inference `switch` of `errorFromResponse`
(`errors.go` lines 128–147), applied when no code came with the body. -/
def inferCode (httpStatus : Int) : ErrorCode :=
  if httpStatus = 400 then CodeInvalidRequest
  else if httpStatus = 401 then CodeUnauthorized
  else if httpStatus = 403 then CodeForbidden
  else if httpStatus = 404 then CodeNotFound
  else if httpStatus = 408 then CodeTimeout
  else if httpStatus = 422 then CodeInvalidRequest
  else if httpStatus = 429 then CodeRateLimited
  else if 500 ≤ httpStatus then CodeInternalError
  else ""

/-- The `error.code` string carried by the body, when the body has an
`error` object whose `code` field is a string (`errors.go` lines
108–120). -/
def bodyCode (body : List (String × JsonVal)) : Option String :=
  match alookupJ body "error" with
  | some (.obj errMap) =>
    match alookupJ errMap "code" with
    | some (.str c) => some c
    | _ => none
  | _ => none

/-- `errorFromResponse` (`errors.go` lines 104–156). -/
def errorFromResponse (httpStatus : Int) (body : List (String × JsonVal))
    (retryAfter : Int) (requestID : String) : Error :=
  let message := "HTTP " ++ toString httpStatus ++ " error"
  let fromBody : String × ErrorCode × String :=
    match alookupJ body "error" with
    | some (.obj errMap) =>
      let message :=
        match alookupJ errMap "message" with
        | some (.str m) => m
        | _ => message
      let code : ErrorCode :=
        match alookupJ errMap "code" with
        | some (.str c) => c
        | _ => ""
      let requestID :=
        if requestID = "" then
          match alookupJ errMap "request_id" with
          | some (.str r) => r
          | _ => requestID
        else requestID
      (message, code, requestID)
    | _ => (message, "", requestID)
  let message := fromBody.1
  let code := fromBody.2.1
  let requestID := fromBody.2.2
  let requestID :=
    if requestID = "" then
      match alookupJ body "request_id" with
      | some (.str r) => r
      | _ => requestID
    else requestID
  let code := if code = "" then inferCode httpStatus else code
  { Message := message, HTTPStatus := httpStatus, Code := code,
    RequestID := requestID, RetryAfter := retryAfter }

/-- `parseRetryAfter` (`http.go` lines 219–228): empty string or an
`Atoi` failure yields 0, otherwise the parsed value. -/
def parseRetryAfter (value : String) : Int :=
  if value = "" then 0
  else
    match parseInt64 value with
    | none => 0
    | some n => n

/-! ### The retry loop (`http.go`, `doWithRetry`)

One attempt of `doRequest` either succeeds with a body, fails with a
`*Error`, or fails with some other Go `error` value (the loop's type
assertion distinguishes the two).  A call is modelled by the sequence
`rsp : Nat → ReqResult` of outcomes attempt by attempt; the loop itself
is deterministic.  `time.Sleep` does not affect control flow and is not
modelled. -/

inductive ReqResult where
  | ok : String → ReqResult
  | apiErr : Error → ReqResult
  | otherErr : String → ReqResult
  deriving DecidableEq, Repr

/-- Does the loop retry after this outcome (a `*Error` that
`IsRetryable`)? -/
def isRetryableResult : ReqResult → Bool
  | .apiErr e => e.IsRetryable
  | _ => false

/-- The `for attempt := 0; attempt <= maxRetries` loop of `doWithRetry`
(`http.go` lines 112–132), from iteration `attempt` with
`fuel = maxRetries - attempt` iterations allowed after this one.
Returns the outcome together with the number of attempts performed.
When `fuel = 0` the guard `attempt >= c.maxRetries` makes every outcome
final, so the attempt's outcome is returned as is. -/
def retryFrom (rsp : Nat → ReqResult) (attempt : Nat) : Nat → ReqResult × Nat
  | 0 => (rsp attempt, attempt + 1)
  | fuel + 1 =>
    match rsp attempt with
    | .ok b => (.ok b, attempt + 1)
    | .apiErr e =>
      if e.IsRetryable then retryFrom rsp (attempt + 1) fuel else (.apiErr e, attempt + 1)
    | .otherErr m => (.otherErr m, attempt + 1)

/-- `doWithRetry` with `maxRetries` retries: outcome and number of
attempts made. -/
def doWithRetry (maxRetries : Nat) (rsp : Nat → ReqResult) : ReqResult × Nat :=
  retryFrom rsp 0 maxRetries

/-- `maxRetryDelay = 30.0` seconds. -/
def maxRetryDelay : ℚ := 30

/-- `calculateDelay` (`http.go` lines 201–217).  `float64` arithmetic is
modelled over `ℚ` (exact for the magnitudes involved); `rand.Float64()`
is passed in as the parameter `rand ∈ [0, 1)`. -/
def calculateDelay (retryDelay : ℚ) (e : Error) (attempt : Nat) (rand : ℚ) : ℚ :=
  if 0 < e.RetryAfter then (e.RetryAfter : ℚ)
  else
    let calculated := retryDelay * 2 ^ attempt
    let jitter := rand * retryDelay * (1 / 2)
    let delay := calculated + jitter
    if delay > maxRetryDelay then maxRetryDelay else delay

/-! ### Signed URL generation (`client.go`, `GenerateURL`) -/

/-- Is a byte left unescaped by `url.QueryEscape`? (alphanumerics and
`-`, `_`, `.`, `~`). -/
def isUnreservedByte (b : Nat) : Bool :=
  decide ((65 ≤ b ∧ b ≤ 90) ∨ (97 ≤ b ∧ b ≤ 122) ∨ (48 ≤ b ∧ b ≤ 57) ∨
    b = 45 ∨ b = 95 ∨ b = 46 ∨ b = 126)

/-- Uppercase hexadecimal digit, as used by `net/url` percent-escaping. -/
def hexDigitUpper (n : Nat) : Char :=
  if n < 10 then Char.ofNat (48 + n) else Char.ofNat (55 + n)

/-- `url.QueryEscape`: space becomes `+`, unreserved bytes stay, every
other byte becomes `%XX`. -/
def queryEscape (s : String) : String :=
  String.mk ((strBytes s).flatMap (fun b =>
    if b = 32 then ['+']
    else if isUnreservedByte b then [Char.ofNat b]
    else ['%', hexDigitUpper (b / 16), hexDigitUpper (b % 16)]))

/-- `sort.Strings`: lexicographic sort (Go compares strings bytewise;
UTF-8 byte order coincides with code point order, which is Lean's
`String` order). -/
def sortStrings (l : List String) : List String :=
  l.mergeSort (fun a b => a ≤ b)

/-- First-match lookup in a string map modelled as an association list. -/
def alookup : List (String × String) → String → Option String
  | [], _ => none
  | (k, v) :: rest, key => if k = key then some v else alookup rest key

/-- Go map assignment `m[k] = v` on the association-list model:
overwrite the existing entry or append a fresh one. -/
def mapInsert (m : List (String × String)) (k v : String) : List (String × String) :=
  if m.any (fun p => p.1 = k) then m.map (fun p => if p.1 = k then (k, v) else p)
  else m ++ [(k, v)]

/-- The canonical query string built by `GenerateURL` (`client.go` lines
146–158): sort all keys, percent-encode each value, join `k=v` pairs
with `&`. -/
def canonicalQuery (m : List (String × String)) : String :=
  String.intercalate "&"
    ((sortStrings (m.map Prod.fst)).map (fun k => k ++ "=" ++ queryEscape ((alookup m k).getD "")))

/-- The signing parameter set: `expires` and `key_id` plus the flattened
options (`client.go` lines 134–144).  `toFlatMap` draws its keys from a
fixed set that contains neither `expires` nor `key_id`, so on the
intended inputs no overwrite occurs. -/
def signParamsOf (expiresUnix : Int) (keyID : String)
    (flat : List (String × String)) : List (String × String) :=
  flat.foldl (fun m kv => mapInsert m kv.1 kv.2)
    [("expires", toString expiresUnix), ("key_id", keyID)]

/-- The fields of `Client` that `GenerateURL` reads. -/
structure ClientSig where
  signingKey : String
  publicKeyID : String
  baseURL : String
  deriving DecidableEq, Repr

/-- The effective secret: the explicit argument, falling back to the
client's configured signing key. -/
def effSecret (c : ClientSig) (signingKey : String) : String :=
  if signingKey = "" then c.signingKey else signingKey

/-- The effective public key id: the explicit argument, falling back to
the client's configured id. -/
def effKeyID (c : ClientSig) (publicKeyID : String) : String :=
  if publicKeyID = "" then c.publicKeyID else publicKeyID

/-- `GenerateURL` (`client.go` lines 116–166), over the already
flattened option map (`options.toFlatMap()`). -/
def GenerateURL (c : ClientSig) (flat : List (String × String)) (expiresUnix : Int)
    (signingKey publicKeyID : String) : Except Error String :=
  let secret := effSecret c signingKey
  let keyID := effKeyID c publicKeyID
  if secret = "" ∨ keyID = "" then
    .error
      { Message := "Signed URLs require signing_key (rs_secret_*) and public_key_id (rs_pub_*). Pass them to New() or to GenerateURL directly.",
        HTTPStatus := 400, Code := CodeInvalidRequest, RequestID := "", RetryAfter := 0 }
  else
    let queryString := canonicalQuery (signParamsOf expiresUnix keyID flat)
    let signature := hexEncode (hmacSha256 (strBytes secret) (strBytes queryString))
    .ok (c.baseURL ++ "/v1/screenshot?" ++ queryString ++ "&signature=" ++ signature)

/-! ## Theorems -/

/-! ### Byte-comparison infrastructure -/

/-- A bitwise OR of naturals is zero exactly when both are. -/
theorem nat_lor_eq_zero_iff (a b : Nat) : a ||| b = 0 ↔ a = 0 ∧ b = 0 := by
  constructor
  · intro h
    constructor
    · apply Nat.eq_of_testBit_eq
      intro i
      have hb := congrArg (fun n => Nat.testBit n i) h
      simp only [Nat.testBit_or, Nat.zero_testBit, Bool.or_eq_false_iff] at hb
      simp [hb.1]
    · apply Nat.eq_of_testBit_eq
      intro i
      have hb := congrArg (fun n => Nat.testBit n i) h
      simp only [Nat.testBit_or, Nat.zero_testBit, Bool.or_eq_false_iff] at hb
      simp [hb.2]
  · rintro ⟨rfl, rfl⟩
    rfl

/-- The OR-accumulator is zero exactly when it started at zero and every
element is zero. -/
theorem foldl_lor_eq_zero (l : List Nat) (a : Nat) :
    l.foldl (fun acc v => acc ||| v) a = 0 ↔ a = 0 ∧ ∀ x ∈ l, x = 0 := by
  induction l generalizing a with
  | nil => simp
  | cons x xs ih =>
    simp only [List.foldl_cons, ih, nat_lor_eq_zero_iff, List.mem_cons]
    constructor
    · rintro ⟨⟨h1, h2⟩, h3⟩
      exact ⟨h1, fun y hy => hy.elim (fun hx => hx ▸ h2) (h3 y)⟩
    · rintro ⟨h1, h2⟩
      exact ⟨⟨h1, h2 x (Or.inl rfl)⟩, fun y hy => h2 y (Or.inr hy)⟩

/-- Zipping a list with itself under XOR gives all zeros. -/
theorem zipWith_xor_self (l : List Nat) :
    List.zipWith (fun a b => a ^^^ b) l l = List.replicate l.length 0 := by
  induction l with
  | nil => rfl
  | cons x xs ih => simp [ih, List.replicate_succ]

/-- Equal-length byte lists whose pointwise XOR is all zero are equal. -/
theorem eq_of_zipWith_xor_zero :
    ∀ (x y : List Nat), x.length = y.length →
      (∀ v ∈ List.zipWith (fun a b => a ^^^ b) x y, v = 0) → x = y
  | [], [], _, _ => rfl
  | a :: as, b :: bs, h, hz => by
    have hab : a = b := Nat.xor_eq_zero.mp (hz (a ^^^ b) (by simp))
    have Rest := eq_of_zipWith_xor_zero as bs (by simpa using h)
      (fun v hv => hz v (by simp [hv]))
    simp [hab, Rest]

/-- `subtle.ConstantTimeCompare` yields 1 exactly on equal byte
sequences. -/
theorem constantTimeCompare_eq_one_iff (x y : List Nat) :
    constantTimeCompare x y = 1 ↔ x = y := by
  unfold constantTimeCompare
  by_cases hlen : x.length ≠ y.length
  · rw [if_pos hlen]
    constructor
    · intro h
      exact absurd h (by simp)
    · intro h
      exact absurd (congrArg List.length h) hlen
  · rw [if_neg hlen]
    push_neg at hlen
    by_cases hz : (List.zipWith (fun a b => a ^^^ b) x y).foldl (fun acc v => acc ||| v) 0 = 0
    · rw [if_pos hz]
      constructor
      · intro _
        exact eq_of_zipWith_xor_zero x y hlen ((foldl_lor_eq_zero _ 0).mp hz).2
      · intro _
        rfl
    · rw [if_neg hz]
      constructor
      · intro h
        exact absurd h (by simp)
      · rintro rfl
        refine absurd ((foldl_lor_eq_zero _ 0).mpr ⟨rfl, fun v hv => ?_⟩) hz
        rw [zipWith_xor_self] at hv
        exact List.eq_of_mem_replicate hv

/-! ### Injectivity of the UTF-8 byte conversion -/

/-- Decoding inverts encoding, for every list of code points and any
sufficient fuel. -/
theorem utf8DecodeLoop_encode (l : List Nat) :
    ∀ fuel, l.length ≤ fuel → utf8DecodeLoop fuel (l.flatMap utf8EncodeCP) = some l := by
  induction l with
  | nil =>
    intro fuel _
    cases fuel <;> rfl
  | cons c cs ih =>
    intro fuel hf
    match fuel, hf with
    | fuel + 1, hf =>
      have hcs : cs.length ≤ fuel := by
        simp only [List.length_cons] at hf
        omega
      simp only [List.flatMap_cons]
      unfold utf8EncodeCP
      by_cases h1 : c < 0x80
      · rw [if_pos h1]
        have hone : utf8DecodeOne c (cs.flatMap utf8EncodeCP) = some (c, cs.flatMap utf8EncodeCP) := by
          unfold utf8DecodeOne
          rw [if_pos h1]
        show utf8DecodeLoop (fuel + 1) (c :: cs.flatMap utf8EncodeCP) = some (c :: cs)
        simp only [utf8DecodeLoop, hone, ih fuel hcs, Option.map_some']
      · by_cases h2 : c < 0x800
        · rw [if_neg h1, if_pos h2]
          have hone : utf8DecodeOne (0xc0 + c / 0x40) ((0x80 + c % 0x40) :: cs.flatMap utf8EncodeCP) =
              some (c, cs.flatMap utf8EncodeCP) := by
            unfold utf8DecodeOne
            rw [if_neg (by omega), if_pos (by omega)]
            simp only [utf8DecodeTail2]
            have hval : (0xc0 + c / 0x40 - 0xc0) * 0x40 + (0x80 + c % 0x40 - 0x80) = c := by omega
            rw [hval]
          show utf8DecodeLoop (fuel + 1)
              ((0xc0 + c / 0x40) :: (0x80 + c % 0x40) :: cs.flatMap utf8EncodeCP) = some (c :: cs)
          simp only [utf8DecodeLoop, hone, ih fuel hcs, Option.map_some']
        · by_cases h3 : c < 0x10000
          · rw [if_neg h1, if_neg h2, if_pos h3]
            have hone : utf8DecodeOne (0xe0 + c / 0x1000)
                ((0x80 + c / 0x40 % 0x40) :: (0x80 + c % 0x40) :: cs.flatMap utf8EncodeCP) =
                some (c, cs.flatMap utf8EncodeCP) := by
              unfold utf8DecodeOne
              rw [if_neg (by omega), if_neg (by omega), if_pos (by omega)]
              simp only [utf8DecodeTail3]
              have hval : (0xe0 + c / 0x1000 - 0xe0) * 0x1000 + (0x80 + c / 0x40 % 0x40 - 0x80) * 0x40 +
                  (0x80 + c % 0x40 - 0x80) = c := by omega
              rw [hval]
            show utf8DecodeLoop (fuel + 1)
                ((0xe0 + c / 0x1000) :: (0x80 + c / 0x40 % 0x40) :: (0x80 + c % 0x40) ::
                  cs.flatMap utf8EncodeCP) = some (c :: cs)
            simp only [utf8DecodeLoop, hone, ih fuel hcs, Option.map_some']
          · rw [if_neg h1, if_neg h2, if_neg h3]
            have hone : utf8DecodeOne (0xf0 + c / 0x40000)
                ((0x80 + c / 0x1000 % 0x40) :: (0x80 + c / 0x40 % 0x40) :: (0x80 + c % 0x40) ::
                  cs.flatMap utf8EncodeCP) = some (c, cs.flatMap utf8EncodeCP) := by
              unfold utf8DecodeOne
              rw [if_neg (by omega), if_neg (by omega), if_neg (by omega)]
              simp only [utf8DecodeTail4]
              have hval : (0xf0 + c / 0x40000 - 0xf0) * 0x40000 +
                  (0x80 + c / 0x1000 % 0x40 - 0x80) * 0x1000 +
                  (0x80 + c / 0x40 % 0x40 - 0x80) * 0x40 + (0x80 + c % 0x40 - 0x80) = c := by omega
              rw [hval]
            show utf8DecodeLoop (fuel + 1)
                ((0xf0 + c / 0x40000) :: (0x80 + c / 0x1000 % 0x40) :: (0x80 + c / 0x40 % 0x40) ::
                  (0x80 + c % 0x40) :: cs.flatMap utf8EncodeCP) = some (c :: cs)
            simp only [utf8DecodeLoop, hone, ih fuel hcs, Option.map_some']

/-- Every code point encodes to at least one byte. -/
theorem utf8EncodeCP_length_pos (c : Nat) : 0 < (utf8EncodeCP c).length := by
  unfold utf8EncodeCP
  split
  · simp
  · split
    · simp
    · split <;> simp

/-- A code point list is no longer than its UTF-8 encoding. -/
theorem length_le_flatMap_encode (l : List Nat) :
    l.length ≤ (l.flatMap utf8EncodeCP).length := by
  induction l with
  | nil => simp
  | cons c cs ih =>
    simp only [List.flatMap_cons, List.length_append, List.length_cons]
    have := utf8EncodeCP_length_pos c
    omega

/-- `strBytes` through the code points of the string. -/
theorem strBytes_eq_flatMap (s : String) :
    strBytes s = (s.data.map Char.toNat).flatMap utf8EncodeCP := by
  rw [strBytes, List.flatMap_map]

/-- Two Go strings with the same bytes are the same string. -/
theorem strBytes_injective {a b : String} (h : strBytes a = strBytes b) : a = b := by
  have ha : utf8DecodeLoop (strBytes a).length (strBytes a) = some (a.data.map Char.toNat) := by
    rw [strBytes_eq_flatMap]
    exact utf8DecodeLoop_encode _ _ (by
      have := length_le_flatMap_encode (a.data.map Char.toNat)
      simpa using this)
  have hb : utf8DecodeLoop (strBytes b).length (strBytes b) = some (b.data.map Char.toNat) := by
    rw [strBytes_eq_flatMap]
    exact utf8DecodeLoop_encode _ _ (by
      have := length_le_flatMap_encode (b.data.map Char.toNat)
      simpa using this)
  rw [h, hb] at ha
  have hmap : b.data.map Char.toNat = a.data.map Char.toNat := Option.some.inj ha
  have hinj : Function.Injective Char.toNat := fun c d hcd => Char.ext (UInt32.toNat.inj hcd)
  exact (String.ext (List.map_injective_iff.mpr hinj hmap)).symm

/-! ### Webhook verifier characterization -/

/-- `wrap64` is the identity on the `int64` range. -/
theorem wrap64_eq_self {n : Int} (h1 : -(2 ^ 63) ≤ n) (h2 : n < 2 ^ 63) : wrap64 n = n := by
  unfold wrap64
  omega

/-- Without `int64` overflow, the computed age is the mathematical
absolute difference. -/
theorem goAge_eq_natAbs {now ts : Int} (h : (now - ts).natAbs < 2 ^ 63) :
    goAge now ts = ((now - ts).natAbs : Int) := by
  have h1 : wrap64 (now - ts) = now - ts := wrap64_eq_self (by omega) (by omega)
  unfold goAge
  show (if wrap64 (now - ts) < 0 then wrap64 (-wrap64 (now - ts)) else wrap64 (now - ts)) =
    ((now - ts).natAbs : Int)
  rw [h1]
  split
  · rw [wrap64_eq_self (by omega) (by omega)]
    omega
  · omega

/-- What `VerifyWebhook` returning `true` means, clause by clause. -/
theorem verifyWebhook_eq_true_iff (now : Int) (p s t k : String) (tol : Int) :
    VerifyWebhook now p s t k tol = true ↔
      p ≠ "" ∧ s ≠ "" ∧ t ≠ "" ∧ k ≠ "" ∧
        ∃ ts, parseInt64 t = some ts ∧ goAge now ts ≤ toleranceSeconds tol ∧
          s = expectedSignature k t p := by
  unfold VerifyWebhook
  by_cases hempty : p = "" ∨ s = "" ∨ t = "" ∨ k = ""
  · rw [if_pos hempty]
    simp only [Bool.false_eq_true, false_iff]
    rintro ⟨hp, hs, ht, hk, -⟩
    rcases hempty with h | h | h | h
    · exact hp h
    · exact hs h
    · exact ht h
    · exact hk h
  · rw [if_neg hempty]
    push_neg at hempty
    obtain ⟨hp, hs, ht, hk⟩ := hempty
    cases hparse : parseInt64 t with
    | none =>
      simp only [Bool.false_eq_true, false_iff]
      rintro ⟨-, -, -, -, ts, hts, -⟩
      exact Option.noConfusion hts
    | some ts =>
      change (if goAge now ts > toleranceSeconds tol then false
        else (constantTimeCompare (strBytes (expectedSignature k t p)) (strBytes s) == 1)) =
          true ↔ _
      by_cases hage : goAge now ts > toleranceSeconds tol
      · rw [if_pos hage]
        simp only [Bool.false_eq_true, false_iff]
        rintro ⟨-, -, -, -, ts2, hts2, hle, -⟩
        cases hts2
        omega
      · rw [if_neg hage]
        rw [beq_iff_eq, constantTimeCompare_eq_one_iff]
        constructor
        · intro hbytes
          exact ⟨hp, hs, ht, hk, ts, rfl, by omega, (strBytes_injective hbytes).symm⟩
        · rintro ⟨-, -, -, -, ts2, hts2, -, hsig⟩
          cases hts2
          rw [hsig]

/-- A tolerance given as a whole positive number of seconds passes
through `int64(tolerance.Seconds())` unchanged. -/
theorem toleranceSeconds_mul (tolSec : Int) (h : tolSec ≠ 0) :
    toleranceSeconds (tolSec * 1000000000) = tolSec := by
  unfold toleranceSeconds effectiveTolerance
  rw [if_neg (mul_ne_zero h (by norm_num))]
  exact Int.mul_tdiv_cancel _ (by norm_num)

/-- Tolerances of a second or less below zero truncate to a negative
whole-second threshold. -/
theorem toleranceSeconds_neg {tol : Int} (h : tol ≤ -1000000000) :
    toleranceSeconds tol < 0 := by
  unfold toleranceSeconds effectiveTolerance
  rw [if_neg (by omega)]
  have hneg : tol.tdiv 1000000000 = -((-tol).tdiv 1000000000) := by
    rw [← Int.neg_tdiv, neg_neg]
  rw [hneg]
  have h3 : (0 : Int) < (-tol).tdiv 1000000000 := by
    rw [Int.tdiv_eq_ediv (by omega) (by norm_num)]
    omega
  omega

/-- The expected signature string starts with `sha256=`, hence is never
empty. -/
theorem expectedSignature_ne_empty (k t p : String) : expectedSignature k t p ≠ "" := by
  unfold expectedSignature
  intro h
  have hl := congrArg String.length h
  rw [String.length_append] at hl
  have h7 : ("sha256=" : String).length = 7 := rfl
  have h0 : ("" : String).length = 0 := rfl
  rw [h7, h0] at hl
  omega

/-- Claim C1 (amended): for non-empty payload, signature, timestamp and
secret and a positive whole-second tolerance, provided the difference
`now - ts` of the parsed timestamp does not overflow `int64`,
`VerifyWebhook` returns `true` exactly when the timestamp parses as a
base-10 integer `ts`, `|now - ts| ≤ tolerance` in seconds, and the
signature equals `"sha256=" + hex(HMAC-SHA256(secret, timestamp + "." +
payload))`.  (The original claim omits the overflow proviso; see the
counterexample, where `ts = now - 2^63` is accepted because the `int64`
age computation wraps around.) -/
theorem verifyWebhook_c1 (now : Int) (payload signature timestamp secret : String)
    (tolSec : Int) (hp : payload ≠ "") (hs : signature ≠ "") (ht : timestamp ≠ "")
    (hk : secret ≠ "") (htol : 0 < tolSec)
    (hnoof : ∀ ts, parseInt64 timestamp = some ts → (now - ts).natAbs < 2 ^ 63) :
    VerifyWebhook now payload signature timestamp secret (tolSec * 1000000000) = true ↔
      ∃ ts, parseInt64 timestamp = some ts ∧ ((now - ts).natAbs : Int) ≤ tolSec ∧
        signature = expectedSignature secret timestamp payload := by
  rw [verifyWebhook_eq_true_iff]
  constructor
  · rintro ⟨-, -, -, -, ts, hts, hage, hsig⟩
    refine ⟨ts, hts, ?_, hsig⟩
    rw [goAge_eq_natAbs (hnoof ts hts), toleranceSeconds_mul tolSec (by omega)] at hage
    exact hage
  · rintro ⟨ts, hts, hage, hsig⟩
    refine ⟨hp, hs, ht, hk, ts, hts, ?_, hsig⟩
    rw [goAge_eq_natAbs (hnoof ts hts), toleranceSeconds_mul tolSec (by omega)]
    exact hage

/-- Claim C1, counterexample to the original statement: with a valid
signature over timestamp `now - 2^63`, the verifier accepts although the
mathematical age `2^63` vastly exceeds the 300-second tolerance — the
`int64` subtraction and negation wrap to a negative age, which passes
the window check. -/
theorem verifyWebhook_c1_counterexample :
    VerifyWebhook 1760140800 "p" (expectedSignature "s" "-9223372035094635008" "p")
        "-9223372035094635008" "s" (300 * 1000000000) = true ∧
      parseInt64 "-9223372035094635008" = some (-9223372035094635008) ∧
      ¬(((1760140800 - (-9223372035094635008) : Int)).natAbs ≤ 300) := by
  refine ⟨?_, by decide, by decide⟩
  rw [verifyWebhook_eq_true_iff]
  exact ⟨by decide, expectedSignature_ne_empty "s" "-9223372035094635008" "p", by decide,
    by decide, -9223372035094635008, by decide, by decide, rfl⟩

/-- Claim C1, witness: the amended theorem applied at a concrete
non-degenerate input. -/
theorem verifyWebhook_c1_witness :
    ("p" : String) ≠ "" ∧ (0 : Int) < 300 ∧
      (VerifyWebhook 1000 "p" "sig" "900" "s" (300 * 1000000000) = true ↔
        ∃ ts, parseInt64 "900" = some ts ∧ ((1000 - ts).natAbs : Int) ≤ 300 ∧
          "sig" = expectedSignature "s" "900" "p") := by
  refine ⟨by decide, by decide,
    verifyWebhook_c1 1000 "p" "sig" "900" "s" 300 (by decide) (by decide) (by decide)
      (by decide) (by decide) ?_⟩
  intro ts hts
  have h9 : parseInt64 "900" = some 900 := by decide
  rw [h9] at hts
  cases hts
  decide

/-- Claim C10 (amended): a tolerance of exactly 0 silently selects the
300-second default, so a zero-width replay window cannot be requested;
and a tolerance of minus one second or less rejects every timestamp
whose age computation does not overflow `int64`.  (The original claim
said every strictly negative tolerance rejects all timestamps; a
tolerance in `(-1s, 0)` truncates to a threshold of 0 seconds and
accepts age-0 timestamps — see the counterexample.) -/
theorem verifyWebhook_c10 (now : Int) (p s t k : String) (tol : Int) :
    VerifyWebhook now p s t k 0 = VerifyWebhook now p s t k DefaultToleranceNs ∧
      (tol ≤ -1000000000 →
        (∀ ts, parseInt64 t = some ts → (now - ts).natAbs < 2 ^ 63) →
        VerifyWebhook now p s t k tol = false) := by
  constructor
  · unfold VerifyWebhook
    have heq : toleranceSeconds 0 = toleranceSeconds DefaultToleranceNs := by
      unfold toleranceSeconds effectiveTolerance DefaultToleranceNs
      norm_num
    rw [heq]
  · intro htol hno
    cases hVW : VerifyWebhook now p s t k tol
    · rfl
    · exfalso
      rw [verifyWebhook_eq_true_iff] at hVW
      obtain ⟨-, -, -, -, ts, hts, hage, -⟩ := hVW
      rw [goAge_eq_natAbs (hno ts hts)] at hage
      have := toleranceSeconds_neg htol
      omega

/-- Claim C10, counterexample to the original statement: the strictly
negative tolerance of -1ns does not reject everything — an age-0
timestamp with a valid signature is accepted, because
`int64(tolerance.Seconds())` truncates -1ns to a 0-second threshold. -/
theorem verifyWebhook_c10_counterexample :
    VerifyWebhook 1000 "p" (expectedSignature "s" "1000" "p") "1000" "s" (-1) = true := by
  rw [verifyWebhook_eq_true_iff]
  exact ⟨by decide, expectedSignature_ne_empty "s" "1000" "p", by decide, by decide,
    1000, by decide, by decide, rfl⟩

/-- Claim C10, witness: the amended theorem applied at a concrete
input, for both the zero-tolerance conjunct and a -2s tolerance. -/
theorem verifyWebhook_c10_witness :
    (VerifyWebhook 1000 "p" "sig" "900" "s" 0 =
        VerifyWebhook 1000 "p" "sig" "900" "s" DefaultToleranceNs) ∧
      (-2000000000 : Int) ≤ -1000000000 ∧
      VerifyWebhook 1000 "p" "sig" "900" "s" (-2000000000) = false := by
  refine ⟨(verifyWebhook_c10 1000 "p" "sig" "900" "s" (-2000000000)).1, by decide,
    (verifyWebhook_c10 1000 "p" "sig" "900" "s" (-2000000000)).2 (by decide) ?_⟩
  intro ts hts
  have h9 : parseInt64 "900" = some 900 := by decide
  rw [h9] at hts
  cases hts
  decide

/-! ### Claim C2: retryability -/

/-- Claim C2: `IsRetryable` is true exactly when the code is one of
`rate_limited`, `timeout`, `render_failed`, `internal_error`,
`connection_error` or the HTTP status lies in `[500, 599]`; in
particular an error with status 400, 401, 403 or 404 and a code outside
that set is not retryable. -/
theorem isRetryable_c2 (e : Error) :
    (e.IsRetryable = true ↔
      (e.Code = CodeRateLimited ∨ e.Code = CodeTimeout ∨ e.Code = CodeRenderFailed ∨
        e.Code = CodeInternalError ∨ e.Code = CodeConnectionError ∨
        (500 ≤ e.HTTPStatus ∧ e.HTTPStatus ≤ 599))) ∧
    ((e.HTTPStatus = 400 ∨ e.HTTPStatus = 401 ∨ e.HTTPStatus = 403 ∨ e.HTTPStatus = 404) →
      e.Code ≠ CodeRateLimited → e.Code ≠ CodeTimeout → e.Code ≠ CodeRenderFailed →
      e.Code ≠ CodeInternalError → e.Code ≠ CodeConnectionError →
      e.IsRetryable = false) := by
  have hiff : e.IsRetryable = true ↔
      (e.Code = CodeRateLimited ∨ e.Code = CodeTimeout ∨ e.Code = CodeRenderFailed ∨
        e.Code = CodeInternalError ∨ e.Code = CodeConnectionError ∨
        (500 ≤ e.HTTPStatus ∧ e.HTTPStatus ≤ 599)) := by
    unfold Error.IsRetryable
    split_ifs with h1 h2
    · exact iff_of_true rfl (by tauto)
    · exact iff_of_true rfl (Or.inr (Or.inr (Or.inr (Or.inr (Or.inr ⟨h2.1, by omega⟩)))))
    · refine iff_of_false (by simp) ?_
      rintro (h | h | h | h | h | ⟨hl, hr⟩)
      · exact h1 (by tauto)
      · exact h1 (by tauto)
      · exact h1 (by tauto)
      · exact h1 (by tauto)
      · exact h1 (by tauto)
      · exact h2 ⟨hl, by omega⟩
  refine ⟨hiff, ?_⟩
  intro hstat h1 h2 h3 h4 h5
  cases hIs : e.IsRetryable
  · rfl
  · exfalso
    rcases hiff.mp hIs with h | h | h | h | h | ⟨hl, -⟩
    · exact h1 h
    · exact h2 h
    · exact h3 h
    · exact h4 h
    · exact h5 h
    · rcases hstat with h | h | h | h <;> omega

/-- Claim C2, witness: a 401 `unauthorized` error is not retryable. -/
theorem isRetryable_c2_witness :
    ((401 : Int) = 400 ∨ (401 : Int) = 401 ∨ (401 : Int) = 403 ∨ (401 : Int) = 404) ∧
      Error.IsRetryable ⟨"Unauthorized", 401, CodeUnauthorized, "", 0⟩ = false :=
  ⟨Or.inr (Or.inl rfl),
    (isRetryable_c2 ⟨"Unauthorized", 401, CodeUnauthorized, "", 0⟩).2 (Or.inr (Or.inl rfl))
      (by decide) (by decide) (by decide) (by decide) (by decide)⟩

/-! ### Claims C3 and C7: the error classifier -/

/-- The code produced by `errorFromResponse`: the body's `error.code`
when that is a non-empty string, otherwise the status inference. -/
theorem errorFromResponse_code (status : Int) (body : List (String × JsonVal))
    (ra : Int) (rid : String) :
    (errorFromResponse status body ra rid).Code =
      (if (bodyCode body).getD "" = "" then inferCode status else (bodyCode body).getD "") := by
  unfold errorFromResponse bodyCode
  cases halo : alookupJ body "error" with
  | none => simp
  | some v =>
    cases v with
    | obj errMap =>
      cases hcode : alookupJ errMap "code" with
      | none => simp [hcode]
      | some v2 =>
        cases v2 <;> simp [hcode]
    | null => simp
    | bool b => simp
    | num n => simp
    | str c => simp
    | arr l => simp

/-- Claim C3 (amended): the classifier uses the body's `error.code` when
the body carries an error object whose `code` field is a *non-empty*
string; when the code is absent *or the empty string* it infers the code
from the status as 400→invalid_request, 401→unauthorized, 403→forbidden,
404→not_found, 408→timeout, 422→invalid_request, 429→rate_limited,
≥500→internal_error, and statuses in 400–499 outside this table leave
the code empty.  (The original claim said the body's code is used
whenever a string `code` field is present; a supplied *empty* code is
overridden by status inference — see the counterexample.) -/
theorem errorFromResponse_c3 (status : Int) (body : List (String × JsonVal))
    (ra : Int) (rid : String) :
    (∀ cs, bodyCode body = some cs → cs ≠ "" →
      (errorFromResponse status body ra rid).Code = cs) ∧
    ((bodyCode body = none ∨ bodyCode body = some "") →
      (errorFromResponse status body ra rid).Code = inferCode status) ∧
    inferCode 400 = CodeInvalidRequest ∧ inferCode 401 = CodeUnauthorized ∧
    inferCode 403 = CodeForbidden ∧ inferCode 404 = CodeNotFound ∧
    inferCode 408 = CodeTimeout ∧ inferCode 422 = CodeInvalidRequest ∧
    inferCode 429 = CodeRateLimited ∧
    (∀ st : Int, 500 ≤ st → inferCode st = CodeInternalError) ∧
    (∀ st : Int, 400 ≤ st → st < 500 → st ≠ 400 → st ≠ 401 → st ≠ 403 → st ≠ 404 →
      st ≠ 408 → st ≠ 422 → st ≠ 429 → inferCode st = "") := by
  refine ⟨?_, ?_, rfl, rfl, rfl, rfl, rfl, rfl, rfl, ?_, ?_⟩
  · intro cs hcs hne
    rw [errorFromResponse_code, hcs]
    simp [hne]
  · intro hcs
    rw [errorFromResponse_code]
    rcases hcs with h | h <;> rw [h] <;> simp
  · intro st h
    unfold inferCode
    rw [if_neg (by omega), if_neg (by omega), if_neg (by omega), if_neg (by omega),
      if_neg (by omega), if_neg (by omega), if_neg (by omega), if_pos h]
  · intro st h1 h2 h3 h4 h5 h6 h7 h8 h9
    unfold inferCode
    rw [if_neg h3, if_neg h4, if_neg h5, if_neg h6, if_neg h7, if_neg h8, if_neg h9,
      if_neg (by omega)]

/-- Claim C3, counterexample to the original statement: a body that
supplies the *empty* string as `error.code` does not have that code
used — status inference still applies, yielding `invalid_request` for a
400. -/
theorem errorFromResponse_c3_counterexample :
    bodyCode [("error", JsonVal.obj [("code", JsonVal.str "")])] = some "" ∧
      (errorFromResponse 400 [("error", JsonVal.obj [("code", JsonVal.str "")])] 0 "").Code =
        CodeInvalidRequest ∧
      CodeInvalidRequest ≠ "" :=
  ⟨rfl, rfl, by decide⟩

/-- Claim C3, witness: a supplied non-empty code survives even for an
unmapped status, and a 500 infers `internal_error`. -/
theorem errorFromResponse_c3_witness :
    bodyCode [("error", JsonVal.obj [("code", JsonVal.str "boom")])] = some "boom" ∧
      ("boom" : String) ≠ "" ∧
      (errorFromResponse 418 [("error", JsonVal.obj [("code", JsonVal.str "boom")])] 0 "").Code =
        "boom" ∧
      inferCode 500 = CodeInternalError := by
  refine ⟨rfl, by decide, ?_, ?_⟩
  · exact (errorFromResponse_c3 418 [("error", JsonVal.obj [("code", JsonVal.str "boom")])]
      0 "").1 "boom" rfl (by decide)
  · exact (errorFromResponse_c3 418 [] 0 "").2.2.2.2.2.2.2.2.2.1 500 (by norm_num)

/-- Claim C7 (amended): for a status in the inference table's domain
(400, 401, 403, 404, 408, 422, 429, or any status ≥ 500) with an empty
body, the classifier produces the table's code, which is non-empty.
(The original claim said *every* status ≥ 400; a 4xx status outside the
table, such as 402, yields an empty code — see the counterexample.) -/
theorem errorFromResponse_c7 (st : Int)
    (h : st = 400 ∨ st = 401 ∨ st = 403 ∨ st = 404 ∨ st = 408 ∨ st = 422 ∨ st = 429 ∨
      500 ≤ st) :
    (errorFromResponse st [] 0 "").Code = inferCode st ∧
      (errorFromResponse st [] 0 "").Code ≠ "" := by
  have h1 : (errorFromResponse st [] 0 "").Code = inferCode st := by
    rw [errorFromResponse_code]
    simp [bodyCode, alookupJ]
  refine ⟨h1, ?_⟩
  rw [h1]
  rcases h with rfl | rfl | rfl | rfl | rfl | rfl | rfl | h5
  · decide
  · decide
  · decide
  · decide
  · decide
  · decide
  · decide
  · unfold inferCode
    rw [if_neg (by omega), if_neg (by omega), if_neg (by omega), if_neg (by omega),
      if_neg (by omega), if_neg (by omega), if_neg (by omega), if_pos h5]
    decide

/-- Claim C7, counterexample to the original statement: HTTP 402 with an
empty body leaves the code empty. -/
theorem errorFromResponse_c7_counterexample :
    (400 : Int) ≤ 402 ∧ (errorFromResponse 402 [] 0 "").Code = "" :=
  ⟨by norm_num, rfl⟩

/-- Claim C7, witness: 404 with an empty body infers `not_found`. -/
theorem errorFromResponse_c7_witness :
    ((404 : Int) = 400 ∨ (404 : Int) = 401 ∨ (404 : Int) = 403 ∨ (404 : Int) = 404 ∨
        (404 : Int) = 408 ∨ (404 : Int) = 422 ∨ (404 : Int) = 429 ∨ 500 ≤ (404 : Int)) ∧
      (errorFromResponse 404 [] 0 "").Code = inferCode 404 ∧
      (errorFromResponse 404 [] 0 "").Code ≠ "" := by
  have h : (404 : Int) = 400 ∨ (404 : Int) = 401 ∨ (404 : Int) = 403 ∨ (404 : Int) = 404 ∨
      (404 : Int) = 408 ∨ (404 : Int) = 422 ∨ (404 : Int) = 429 ∨ 500 ≤ (404 : Int) :=
    Or.inr (Or.inr (Or.inr (Or.inl rfl)))
  exact ⟨h, (errorFromResponse_c7 404 h).1, (errorFromResponse_c7 404 h).2⟩

/-! ### Claim C8: `parseRetryAfter` -/

/-- Claim C8 (amended): `parseRetryAfter` returns an integer — 0 for the
empty string and for any string `Atoi` rejects, and the parsed value for
any decimal numeral, e.g. `"30" ↦ 30`.  (The original claim said the
result is always non-negative; a negative numeral such as `"-5"` parses
to its negative value — see the counterexample.) -/
theorem parseRetryAfter_c8 :
    parseRetryAfter "" = 0 ∧ parseRetryAfter "abc" = 0 ∧ parseRetryAfter "30" = 30 ∧
      (∀ s, parseInt64 s = none → parseRetryAfter s = 0) ∧
      (∀ s n, parseInt64 s = some n → parseRetryAfter s = n) := by
  refine ⟨by decide, by decide, by decide, ?_, ?_⟩
  · intro s hnone
    unfold parseRetryAfter
    by_cases hempty : s = ""
    · rw [if_pos hempty]
    · rw [if_neg hempty, hnone]
  · intro s n hsome
    unfold parseRetryAfter
    by_cases hempty : s = ""
    · exfalso
      rw [hempty] at hsome
      have hne : parseInt64 "" = none := rfl
      rw [hne] at hsome
      exact Option.noConfusion hsome
    · rw [if_neg hempty, hsome]

/-- Claim C8, counterexample to the original statement: a negative
numeral yields a negative result. -/
theorem parseRetryAfter_c8_counterexample :
    parseRetryAfter "-5" = -5 ∧ ¬(0 ≤ parseRetryAfter "-5") :=
  ⟨by decide, by decide⟩

/-- Claim C8, witness: the universally quantified conjuncts applied to
concrete strings. -/
theorem parseRetryAfter_c8_witness :
    parseInt64 "xy" = none ∧ parseRetryAfter "xy" = 0 ∧
      parseInt64 "7" = some 7 ∧ parseRetryAfter "7" = 7 :=
  ⟨by decide, parseRetryAfter_c8.2.2.2.1 "xy" (by decide), by decide,
    parseRetryAfter_c8.2.2.2.2 "7" 7 (by decide)⟩

/-! ### Claim C5: delay calculation -/

/-- Claim C5: when the error carries a positive `retry_after`, the delay
is exactly that value — independent of the attempt number, the base
delay and the jitter draw, with no cap applied; only otherwise is the
delay `base_delay * 2^attempt` plus jitter `rand * base_delay * 0.5`,
capped at 30 seconds. -/
theorem calculateDelay_c5 (rd : ℚ) (e : Error) (attempt : Nat) (rand : ℚ) :
    (0 < e.RetryAfter → calculateDelay rd e attempt rand = (e.RetryAfter : ℚ)) ∧
    (0 < e.RetryAfter → ∀ (rd2 : ℚ) (a2 : Nat) (r2 : ℚ),
      calculateDelay rd e attempt rand = calculateDelay rd2 e a2 r2) ∧
    (e.RetryAfter ≤ 0 →
      calculateDelay rd e attempt rand =
        min (rd * 2 ^ attempt + rand * rd * (1 / 2)) 30) := by
  refine ⟨?_, ?_, ?_⟩
  · intro h
    unfold calculateDelay
    rw [if_pos h]
  · intro h rd2 a2 r2
    unfold calculateDelay
    rw [if_pos h, if_pos h]
  · intro h
    simp only [calculateDelay, maxRetryDelay, if_neg (by omega : ¬0 < e.RetryAfter)]
    split
    · next hgt => exact (min_eq_right hgt.le).symm
    · next hle => exact (min_eq_left (not_lt.mp hle)).symm

/-- Claim C5, witness: an error with `retry_after = 60` produces a
delay of exactly 60 seconds even though the uncapped backoff formula
would exceed the 30-second ceiling. -/
theorem calculateDelay_c5_witness :
    (0 : Int) < 60 ∧
      calculateDelay 1 ⟨"rate limited", 429, CodeRateLimited, "", 60⟩ 5 (1 / 3) = 60 := by
  have h := (calculateDelay_c5 1 ⟨"rate limited", 429, CodeRateLimited, "", 60⟩ 5 (1 / 3)).1
    (by decide)
  refine ⟨by decide, ?_⟩
  rw [h]
  norm_num

/-! ### Claim C4: the retry loop -/

/-- If the first `k` attempts fail retryably and attempt `k` succeeds,
the loop stops there with the success, having made `k + 1` attempts. -/
theorem retryFrom_first_ok (rsp : Nat → ReqResult) :
    ∀ (k fuel attempt : Nat) (b : String), k ≤ fuel →
      (∀ j, j < k → isRetryableResult (rsp (attempt + j)) = true) →
      rsp (attempt + k) = .ok b →
      retryFrom rsp attempt fuel = (.ok b, attempt + k + 1) := by
  intro k
  induction k with
  | zero =>
    intro fuel attempt b _ _ hok
    rw [Nat.add_zero] at hok
    cases fuel with
    | zero => simp [retryFrom, hok]
    | succ f => simp [retryFrom, hok]
  | succ k ih =>
    intro fuel attempt b hk hr hok
    match fuel, hk with
    | f + 1, hk =>
      have h0 : isRetryableResult (rsp attempt) = true := by
        have := hr 0 (by omega)
        rwa [Nat.add_zero] at this
      cases hra : rsp attempt with
      | ok b2 => rw [hra] at h0; simp [isRetryableResult] at h0
      | otherErr m => rw [hra] at h0; simp [isRetryableResult] at h0
      | apiErr e =>
        rw [hra] at h0
        simp only [isRetryableResult] at h0
        have hstep := ih f (attempt + 1) b (by omega)
          (fun j hj => by
            have hshift := hr (j + 1) (by omega)
            rwa [show attempt + (j + 1) = attempt + 1 + j by omega] at hshift)
          (by rwa [show attempt + (k + 1) = attempt + 1 + k by omega] at hok)
        have harith : attempt + 1 + k + 1 = attempt + (k + 1) + 1 := by omega
        simp only [retryFrom, hra, h0, if_true]
        rw [hstep, harith]

/-- The loop never makes more than `fuel + 1` attempts past `attempt`. -/
theorem retryFrom_attempts_le (rsp : Nat → ReqResult) :
    ∀ (fuel attempt : Nat), (retryFrom rsp attempt fuel).2 ≤ attempt + fuel + 1 := by
  intro fuel
  induction fuel with
  | zero =>
    intro attempt
    simp [retryFrom]
  | succ f ih =>
    intro attempt
    simp only [retryFrom]
    cases hra : rsp attempt with
    | ok b => simp
    | otherErr m => simp
    | apiErr e =>
      by_cases hretry : e.IsRetryable
      · simp only [hretry, if_true]
        have := ih (attempt + 1)
        omega
      · simp [hretry]

/-- Claim C4: if the first failures are all retryable typed errors and
attempt `k ≤ max_retries` succeeds, the transport returns that success
after exactly `k + 1` attempts; a first-attempt error that is not a
typed API error, or is a non-retryable typed error, is returned after
exactly one attempt regardless of `max_retries`; and in all cases at
most `max_retries + 1` attempts are made.  With `max_retries = 3` and a
server failing retryably twice then succeeding, this gives exactly 3
attempts and the success payload (see the witness). -/
theorem doWithRetry_c4 (mr : Nat) (rsp : Nat → ReqResult) :
    (∀ k b, k ≤ mr → (∀ j, j < k → isRetryableResult (rsp j) = true) → rsp k = .ok b →
      doWithRetry mr rsp = (.ok b, k + 1)) ∧
    (∀ m, rsp 0 = .otherErr m → doWithRetry mr rsp = (.otherErr m, 1)) ∧
    (∀ e, rsp 0 = .apiErr e → e.IsRetryable = false → doWithRetry mr rsp = (.apiErr e, 1)) ∧
    (doWithRetry mr rsp).2 ≤ mr + 1 := by
  refine ⟨?_, ?_, ?_, ?_⟩
  · intro k b hk hr hok
    have h := retryFrom_first_ok rsp k mr 0 b hk
      (fun j hj => by simpa using hr j hj) (by simpa using hok)
    simpa [doWithRetry] using h
  · intro m h0
    unfold doWithRetry
    cases mr with
    | zero => simp [retryFrom, h0]
    | succ f => simp [retryFrom, h0]
  · intro e h0 hnr
    unfold doWithRetry
    cases mr with
    | zero => simp [retryFrom, h0]
    | succ f => simp [retryFrom, h0, hnr]
  · have h := retryFrom_attempts_le rsp mr 0
    simpa [doWithRetry] using h

/-- Claim C4, witness: `max_retries = 3` and a server that fails with a
retryable 429 twice then succeeds — exactly 3 attempts, and the success
payload is returned. -/
theorem doWithRetry_c4_witness :
    doWithRetry 3 (fun k => if k < 2 then .apiErr ⟨"rate limited", 429, CodeRateLimited, "", 0⟩
        else .ok "done") = (.ok "done", 3) ∧
      (doWithRetry 3 (fun k => if k < 2 then .apiErr ⟨"rate limited", 429, CodeRateLimited, "", 0⟩
        else .ok "done")).2 ≤ 3 + 1 := by
  refine ⟨?_, (doWithRetry_c4 3 _).2.2.2⟩
  exact (doWithRetry_c4 3 _).1 2 "done" (by omega) (by decide) (by decide)

/-! ### Claim C9: `GenerateURL` configuration errors -/

/-- Claim C9: `GenerateURL` fails exactly when the effective signing key
(argument, falling back to the client's) or the effective public key id
is empty; the failure is a typed API error with code `invalid_request`,
non-retryable, and no signed URL is produced — otherwise a signed URL is
returned. -/
theorem generateURL_c9 (c : ClientSig) (flat : List (String × String)) (expires : Int)
    (sk pk : String) :
    ((∃ e, GenerateURL c flat expires sk pk = .error e) ↔
      (effSecret c sk = "" ∨ effKeyID c pk = "")) ∧
    (∀ e, GenerateURL c flat expires sk pk = .error e →
      e.Code = CodeInvalidRequest ∧ e.IsRetryable = false ∧ e.HTTPStatus = 400) ∧
    (effSecret c sk ≠ "" → effKeyID c pk ≠ "" →
      ∃ u, GenerateURL c flat expires sk pk = .ok u) := by
  simp only [GenerateURL]
  by_cases hcond : effSecret c sk = "" ∨ effKeyID c pk = ""
  · rw [if_pos hcond]
    refine ⟨iff_of_true ⟨_, rfl⟩ hcond, ?_, ?_⟩
    · intro e he
      injection he with he
      subst he
      exact ⟨rfl, by decide, rfl⟩
    · intro h1 h2
      exfalso
      tauto
  · rw [if_neg hcond]
    refine ⟨?_, ?_, ?_⟩
    · refine iff_of_false ?_ hcond
      rintro ⟨e, he⟩
      exact Except.noConfusion he
    · intro e he
      exact Except.noConfusion he
    · intro _ _
      exact ⟨_, rfl⟩

/-- Claim C9, witness: a client with no keys fails; a configured client
succeeds. -/
theorem generateURL_c9_witness :
    (∃ e, GenerateURL ⟨"", "", "https://api.renderscreenshot.com"⟩ [] 0 "" "" = .error e) ∧
      (∃ u, GenerateURL ⟨"rs_secret_k", "rs_pub_1", "https://api.renderscreenshot.com"⟩
        [] 0 "" "" = .ok u) :=
  ⟨(generateURL_c9 ⟨"", "", "https://api.renderscreenshot.com"⟩ [] 0 "" "").1.mpr
      (Or.inl rfl),
    (generateURL_c9 ⟨"rs_secret_k", "rs_pub_1", "https://api.renderscreenshot.com"⟩
      [] 0 "" "").2.2 (by decide) (by decide)⟩

/-! ### Claim C6: order independence of signing -/

/-- Inserting a fresh key appends it. -/
theorem mapInsert_fresh {m : List (String × String)} {k : String} (v : String)
    (h : k ∉ m.map Prod.fst) : mapInsert m k v = m ++ [(k, v)] := by
  unfold mapInsert
  rw [if_neg]
  intro hany
  rw [List.any_eq_true] at hany
  obtain ⟨p, hp, hpk⟩ := hany
  rw [decide_eq_true_iff] at hpk
  exact h (hpk ▸ List.mem_map_of_mem Prod.fst hp)

/-- Folding Go map assignments of pairwise-distinct fresh keys appends
the whole list. -/
theorem foldl_mapInsert_append :
    ∀ (flat m : List (String × String)),
      (∀ x ∈ flat.map Prod.fst, x ∉ m.map Prod.fst) → (flat.map Prod.fst).Nodup →
      flat.foldl (fun acc kv => mapInsert acc kv.1 kv.2) m = m ++ flat := by
  intro flat
  induction flat with
  | nil => intro m _ _; simp
  | cons p rest ih =>
    intro m hfresh hnd
    simp only [List.foldl_cons]
    rw [mapInsert_fresh p.2 (hfresh p.1 (by simp))]
    rw [ih (m ++ [(p.1, p.2)]) ?_ ?_]
    · simp
    · intro x hx
      simp only [List.map_append, List.mem_append, List.map_cons, List.map_nil]
      rintro (hm | hone)
      · exact hfresh x (by simp [hx]) hm
      · simp only [List.mem_singleton] at hone
        rw [List.map_cons, List.nodup_cons] at hnd
        exact hnd.1 (hone ▸ hx)
    · rw [List.map_cons, List.nodup_cons] at hnd
      exact hnd.2

/-- With pairwise-distinct keys, `alookup` finds exactly the pair in the
list. -/
theorem alookup_eq_some_of_mem :
    ∀ {l : List (String × String)} {k v : String},
      (l.map Prod.fst).Nodup → (k, v) ∈ l → alookup l k = some v := by
  intro l
  induction l with
  | nil => intro k v _ h; exact absurd h (List.not_mem_nil _)
  | cons p rest ih =>
    intro k v hnd hmem
    rw [List.map_cons, List.nodup_cons] at hnd
    rcases List.mem_cons.mp hmem with heq | hrest
    · rw [← heq]
      unfold alookup
      rw [if_pos rfl]
    · unfold alookup
      rw [if_neg ?_]
      · exact ih hnd.2 hrest
      · intro hk
        exact hnd.1 (hk ▸ List.mem_map_of_mem Prod.fst hrest)

/-- `alookup` fails exactly off the key set. -/
theorem alookup_eq_none_iff :
    ∀ (l : List (String × String)) (k : String),
      alookup l k = none ↔ k ∉ l.map Prod.fst := by
  intro l
  induction l with
  | nil => intro k; simp [alookup]
  | cons p rest ih =>
    intro k
    unfold alookup
    by_cases hk : p.1 = k
    · rw [if_pos hk]
      simp [← hk]
    · rw [if_neg hk]
      rw [ih k]
      simp only [List.map_cons, List.mem_cons]
      constructor
      · intro h hmem
        rcases hmem with h1 | h1
        · exact hk h1.symm
        · exact h h1
      · intro h hmem
        exact h (Or.inr hmem)

/-- A found binding is a member. -/
theorem mem_of_alookup_eq_some :
    ∀ {l : List (String × String)} {k v : String},
      alookup l k = some v → (k, v) ∈ l := by
  intro l
  induction l with
  | nil => intro k v h; exact Option.noConfusion h
  | cons p rest ih =>
    intro k v h
    unfold alookup at h
    by_cases hk : p.1 = k
    · rw [if_pos hk] at h
      cases h
      rw [← hk]
      have hpe : (p.1, p.2) = p := rfl
      rw [hpe]
      exact List.mem_cons_self p rest
    · rw [if_neg hk] at h
      exact List.mem_cons_of_mem p (ih h)

/-- Lookup is invariant under permutation when keys are pairwise
distinct. -/
theorem alookup_perm {l₁ l₂ : List (String × String)} (h : l₁.Perm l₂)
    (hnd : (l₁.map Prod.fst).Nodup) (key : String) :
    alookup l₁ key = alookup l₂ key := by
  cases h1 : alookup l₁ key with
  | none =>
    rw [alookup_eq_none_iff] at h1
    rw [(alookup_eq_none_iff l₂ key).mpr]
    intro hmem
    exact h1 (((h.map Prod.fst).mem_iff).mpr hmem)
  | some v =>
    have hmem := mem_of_alookup_eq_some h1
    have hnd2 : (l₂.map Prod.fst).Nodup := ((h.map Prod.fst).nodup_iff).mp hnd
    exact (alookup_eq_some_of_mem hnd2 (h.mem_iff.mp hmem)).symm

/-- `sort.Strings` gives the same result on any two permutations of the
same key multiset. -/
theorem sortStrings_eq_of_perm {l₁ l₂ : List String} (h : l₁.Perm l₂) :
    sortStrings l₁ = sortStrings l₂ := by
  apply List.eq_of_perm_of_sorted (r := (· ≤ · : String → String → Prop))
  · exact (List.mergeSort_perm l₁ _).trans (h.trans (List.mergeSort_perm l₂ _).symm)
  · exact List.sorted_mergeSort' _
  · exact List.sorted_mergeSort' _

/-- The canonical query string is invariant under permutation of the
parameter map. -/
theorem canonicalQuery_perm {m₁ m₂ : List (String × String)} (h : m₁.Perm m₂)
    (hnd : (m₁.map Prod.fst).Nodup) : canonicalQuery m₁ = canonicalQuery m₂ := by
  unfold canonicalQuery
  rw [← sortStrings_eq_of_perm (h.map Prod.fst)]
  congr 1
  apply List.map_congr_left
  intro a _
  rw [alookup_perm h hnd a]

/-- On inputs whose keys avoid `expires`/`key_id` (as `toFlatMap`'s fixed
key set does), the signing parameter set is the base pairs followed by
the options. -/
theorem signParamsOf_eq_append (expires : Int) (keyID : String)
    {l : List (String × String)} (hnd : (l.map Prod.fst).Nodup)
    (he : "expires" ∉ l.map Prod.fst) (hk : "key_id" ∉ l.map Prod.fst) :
    signParamsOf expires keyID l =
      [("expires", toString expires), ("key_id", keyID)] ++ l := by
  unfold signParamsOf
  apply foldl_mapInsert_append l _ ?_ hnd
  intro x hx
  simp only [List.map_cons, List.map_nil, List.mem_cons, List.not_mem_nil]
  rintro (h1 | h1 | h1)
  · exact he (h1 ▸ hx)
  · exact hk (h1 ▸ hx)
  · exact h1

/-- Claim C6: signing is order-independent on the logical parameter set —
two flattened option maps holding exactly the same key/value pairs (in
any order, keys pairwise distinct and distinct from the inserted
`expires`/`key_id`) produce the identical canonical query string, hence
the identical HMAC-SHA256 hex signature, and the identical signed URL. -/
theorem generateURL_c6 (c : ClientSig) (expires : Int) (sk pk : String)
    (l₁ l₂ : List (String × String)) (hperm : l₁.Perm l₂)
    (hnd : (l₁.map Prod.fst).Nodup) (he : "expires" ∉ l₁.map Prod.fst)
    (hk : "key_id" ∉ l₁.map Prod.fst) :
    (∀ keyID, canonicalQuery (signParamsOf expires keyID l₁) =
      canonicalQuery (signParamsOf expires keyID l₂)) ∧
    (∀ secret keyID, hexEncode (hmacSha256 (strBytes secret)
        (strBytes (canonicalQuery (signParamsOf expires keyID l₁)))) =
      hexEncode (hmacSha256 (strBytes secret)
        (strBytes (canonicalQuery (signParamsOf expires keyID l₂))))) ∧
    GenerateURL c l₁ expires sk pk = GenerateURL c l₂ expires sk pk := by
  have hnd2 : (l₂.map Prod.fst).Nodup := ((hperm.map Prod.fst).nodup_iff).mp hnd
  have he2 : "expires" ∉ l₂.map Prod.fst := fun hm => he (((hperm.map Prod.fst).mem_iff).mpr hm)
  have hk2 : "key_id" ∉ l₂.map Prod.fst := fun hm => hk (((hperm.map Prod.fst).mem_iff).mpr hm)
  have hcq : ∀ keyID, canonicalQuery (signParamsOf expires keyID l₁) =
      canonicalQuery (signParamsOf expires keyID l₂) := by
    intro keyID
    rw [signParamsOf_eq_append expires keyID hnd he hk,
      signParamsOf_eq_append expires keyID hnd2 he2 hk2]
    apply canonicalQuery_perm (List.Perm.append_left _ hperm)
    simp only [List.cons_append, List.nil_append, List.map_cons, List.nodup_cons,
      List.mem_cons]
    refine ⟨?_, ?_, hnd⟩
    · rintro (h1 | h1)
      · exact absurd h1 (by decide)
      · exact he h1
    · exact hk
  refine ⟨hcq, fun secret keyID => by rw [hcq keyID], ?_⟩
  simp only [GenerateURL]
  by_cases hcond : effSecret c sk = "" ∨ effKeyID c pk = ""
  · rw [if_pos hcond, if_pos hcond]
  · rw [if_neg hcond, if_neg hcond, hcq (effKeyID c pk)]

/-- Claim C6, witness: two orderings of the same two options produce
the same signed URL. -/
theorem generateURL_c6_witness :
    GenerateURL ⟨"rs_secret_k", "rs_pub_1", "https://api.renderscreenshot.com"⟩
        [("url", "https://example.com"), ("width", "100")] 1700000000 "" "" =
      GenerateURL ⟨"rs_secret_k", "rs_pub_1", "https://api.renderscreenshot.com"⟩
        [("width", "100"), ("url", "https://example.com")] 1700000000 "" "" :=
  (generateURL_c6 ⟨"rs_secret_k", "rs_pub_1", "https://api.renderscreenshot.com"⟩
    1700000000 "" "" [("url", "https://example.com"), ("width", "100")]
    [("width", "100"), ("url", "https://example.com")]
    (by decide) (by decide) (by decide) (by decide)).2.2
